import Mathlib

/-!
Verification development for the FeatherJet / VelocityTasks front server.

The Go sources embedded here are:
 - internal/config/config.go  (Config struct, Load, Validate)
 - internal/server/server.go  (New, setupRoutes, setupMiddleware,
   createStaticFileHandler, handleHello, handleStatus, handleInfo,
   handleTasksProxy)
 - the parts of the Go standard library that those functions delegate to
   and whose behaviour the specified properties depend on:
   net/http.ServeMux dispatch (path cleaning, trailing-slash redirect,
   exact-first then longest-sorted-subtree matching), http.FileServer and
   http.Dir lookup (path.Clean confinement of the looked-up location),
   http.Error and http.NotFound, and
   net/http/httputil.NewSingleHostReverseProxy (the Director built by it,
   hop-by-hop header removal and X-Forwarded-For handling performed by
   ReverseProxy.ServeHTTP).

Strings are modelled with the ordinary String type; the Go byte-level
operations used by the code only ever compare ASCII literals, for which
character-level and byte-level prefix tests agree.  Header names are used
in their canonical MIME form throughout, so the canonicalisation performed
by net/textproto is the identity on every name occurring here.  Header
collections are association lists; the order of unrelated header lines is
not significant for any property below.
-/

namespace FeatherJet

/-! ## Character-level string utilities

Structural (kernel-computable) counterparts of the byte-wise string
operations the Go code uses. -/

/-- Splits a character list at every occurrence of the separator. -/
def splitChar (sep : Char) : List Char → List (List Char)
  | [] => [[]]
  | c :: rest =>
    match splitChar sep rest with
    | [] => [[]]
    | cur :: acc => if c = sep then [] :: cur :: acc else (c :: cur) :: acc

/-- Path segments of a slash-separated string, empty segments removed
(this is how `path.Clean` sees a rooted path: leading, trailing and
doubled slashes all produce empty segments, which it drops). -/
def segsOf (s : String) : List String :=
  ((splitChar '/' s.data).filter (fun l => l ≠ [])).map String.mk

/-- Boolean string prefix test (`strings.HasPrefix` / `p[:n] == lit` on
ASCII literals in the Go code). -/
def strStartsWith (s pre : String) : Bool :=
  pre.data.isPrefixOf s.data

/-- Last character of a string, if any (`p[len(p)-1]` tests in Go). -/
def lastChar (s : String) : Option Char :=
  s.data.getLast?

/-! ## Configuration (internal/config/config.go) -/

/-- Durations are modelled as int64 nanoseconds, the representation of
Go `time.Duration`. -/
def nanosecond : Int := 1
def second : Int := 1000000000

/-- Server section of the configuration struct. -/
structure ServerSection where
  host : String
  port : Int
  readTimeout : Int
  writeTimeout : Int
  idleTimeout : Int
deriving DecidableEq

/-- Static section of the configuration struct. -/
structure StaticSection where
  directory : String
  cacheMaxAge : String
deriving DecidableEq

/-- Logging section of the configuration struct. -/
structure LoggingSection where
  level : String
  enableRequestLogging : Bool
deriving DecidableEq

/-- Middleware section of the configuration struct.  Note that the
struct has no proxy-target field of any kind: the whole configuration
type is exactly the four sections below. -/
structure MiddlewareSection where
  enableCORS : Bool
  enableCompression : Bool
deriving DecidableEq

/-- The application configuration (`config.Config`). -/
structure Config where
  server : ServerSection
  static : StaticSection
  logging : LoggingSection
  middleware : MiddlewareSection
deriving DecidableEq

/-- The default values installed by `Load` before it looks for a file
(config.go lines 40 to 51). -/
def defaultConfig : Config :=
  { server :=
      { host := "localhost"
        port := 8080
        readTimeout := 30 * second
        writeTimeout := 30 * second
        idleTimeout := 120 * second }
    static :=
      { directory := "./public"
        cacheMaxAge := "3600" }
    logging :=
      { level := "info"
        enableRequestLogging := true }
    middleware :=
      { enableCORS := true
        enableCompression := false } }

/-- A file system snapshot: regular file contents by name, and a
directory-existence predicate.  A path can hold a regular file
(`files p = some _`), a directory (`dirExists p = true`), or nothing
(neither). -/
structure FS where
  files : String → Option String
  dirExists : String → Bool

/-- What `os.Stat` followed by `IsDir` sees at a path. -/
inductive StatKind where
  | dirEntry
  | fileEntry (content : String)
  | missing
deriving DecidableEq

/-- Classifies the entry at a path: a directory, a regular file with
its content, or nothing. -/
def statAt (fs : FS) (p : String) : StatKind :=
  if fs.dirExists p then StatKind.dirEntry
  else
    match fs.files p with
    | some c => StatKind.fileEntry c
    | none => StatKind.missing

/-- Whether `os.Stat(p)` succeeds, i.e. `os.IsNotExist` does NOT hold:
something — a directory or a regular file — exists at the path. -/
def osStatExists (fs : FS) (p : String) : Bool :=
  fs.dirExists p || (fs.files p).isSome

/-- Result of `config.Load` (config.go lines 53 to 70).  The YAML
decoding applied to file data is the external `gopkg.in/yaml.v3`
collaborator and is passed in as a function.  `Load` takes the default
branch only when `os.Stat` fails with not-exist (nothing at the path);
when something exists there but `os.ReadFile` cannot read it as a file
(e.g. it is a directory), `Load` returns the wrapped read error. -/
def Load (yamlParse : String → Except String Config)
    (fs : FS) (configPath : String) : Except String Config :=
  if osStatExists fs configPath = false then Except.ok defaultConfig
  else
    match fs.files configPath with
    | some data => yamlParse data
    | none => Except.error "failed to read config file"

/-! ## Time (handleStatus uptime computation)

`time.Now` is modelled as consuming successive readings from a clock,
an arbitrary function from read indices to int64 nanosecond instants.
Each call returns the current reading and advances the index. -/

/-- One `time.Now()` call: the instant read, and the next read index. -/
def timeNow (reads : Nat → Int) (k : Nat) : Int × Nat :=
  (reads k, k + 1)

/-- One `time.Since(t)` call: `time.Now().Sub(t)`. -/
def timeSince (reads : Nat → Int) (k : Nat) (t : Int) : Int × Nat :=
  let (nw, k1) := timeNow reads k
  (nw - t, k1)

/-- The uptime value computed by `handleStatus` (server.go line 144):
`time.Since(time.Now())`, i.e. the difference of two consecutive clock
readings taken at the instant of the call. -/
def handleStatusUptime (reads : Nat → Int) (k : Nat) : Int × Nat :=
  let (t0, k1) := timeNow reads k
  timeSince reads k1 t0

/-! ## Responses -/

/-- A scalar JSON value appearing in the API payloads. -/
inductive JLeaf where
  | jstr (v : String)
  | jint (v : Int)
  | jbool (v : Bool)
deriving DecidableEq

/-- A top-level JSON field value: a scalar, or a flat sub-object (the
API payloads nest exactly one level).  Field lists are in the order
`encoding/json` emits them for a `map[string]interface` value, namely
sorted by key. -/
inductive JField where
  | leaf (v : JLeaf)
  | node (fields : List (String × JLeaf))
deriving DecidableEq

/-- A response body: either raw text (static files, `http.Error`,
redirects) or a JSON object (the API handlers).  JSON serialisation
itself is the `encoding/json` collaborator; a body is kept structured
so that "is valid JSON containing an error field" is directly
expressible. -/
inductive Body where
  | text (s : String)
  | jsonObj (fields : List (String × JField))
deriving DecidableEq

/-- The property asked of a 404 body by the specification: it is valid
JSON and contains an `error` field. -/
def bodyHasJsonError : Body → Prop
  | Body.text _ => False
  | Body.jsonObj fields => "error" ∈ fields.map Prod.fst

/-- An HTTP response as observed by the client: status code, header
lines, body. -/
structure Response where
  status : Nat
  headers : List (String × String)
  body : Body
deriving DecidableEq

/-- Boolean test for the presence of a header name. -/
def hasHeader (hs : List (String × String)) (n : String) : Bool :=
  hs.any (fun kv => kv.1 = n)

/-- Headers written by `http.Error` (and so by `http.NotFound`). -/
def plainTextErrHeaders : List (String × String) :=
  [("Content-Type", "text/plain; charset=utf-8"),
   ("X-Content-Type-Options", "nosniff")]

/-! ## Path cleaning (path.Clean and ServeMux.cleanPath)

`path.Clean` on a rooted path drops `.` segments, resolves `..`
segments against the segments already accepted (discarding `..` at the
root), collapses repeated slashes and removes the trailing slash.  Both
call sites in the embedded code (`ServeMux.cleanPath` and
`http.FileServer`, which cleans `"/" + upath`) only ever clean rooted
paths. -/

/-- One step of the lexical `..` / `.` resolution of `path.Clean`. -/
def cleanStep (out : List String) (seg : String) : List String :=
  if seg = "." then out
  else if seg = ".." then out.dropLast
  else out ++ [seg]

/-- The segments of the cleaned path. -/
def cleanSegs (segs : List String) : List String :=
  segs.foldl cleanStep []

/-- Renders a segment list as a rooted path string. -/
def rootedPath (segs : List String) : String :=
  String.mk ('/' :: List.intercalate ['/'] (segs.map String.data))

/-- Models `path.Clean` for a rooted input path. -/
def pathClean (s : String) : String :=
  rootedPath (cleanSegs (segsOf s))

/-- Models `net/http.cleanPath`: roots the path, cleans it, and
restores a trailing slash that cleaning removed. -/
def cleanPath (p : String) : String :=
  if p = "" then "/"
  else
    let q := if strStartsWith p "/" then p else "/" ++ p
    let np := pathClean q
    if lastChar p = some '/' ∧ np ≠ "/" then np ++ "/" else np

/-! ## Route table and dispatch (setupRoutes + net/http.ServeMux)

`setupRoutes` registers `/api/hello`, `/api/status`, `/api/info`,
`/api/tasks/`, `/api/tasks` and the catch-all `/` (server.go lines 56
to 67).  ServeMux keeps all patterns in a map for exact lookup and the
slash-terminated ones additionally in a list sorted by decreasing
length for longest-match subtree lookup. -/

/-- Identity of the handler a request is dispatched to. -/
inductive HandlerId where
  | helloRoute
  | statusRoute
  | infoRoute
  | tasksProxyRoute
  | staticRoute
deriving DecidableEq

/-- Exact-pattern lookup: the `mux.m` map restricted to the patterns
registered by `setupRoutes`. -/
def findExact (p : String) : Option HandlerId :=
  if p = "/api/hello" then some HandlerId.helloRoute
  else if p = "/api/status" then some HandlerId.statusRoute
  else if p = "/api/info" then some HandlerId.infoRoute
  else if p = "/api/tasks/" then some HandlerId.tasksProxyRoute
  else if p = "/api/tasks" then some HandlerId.tasksProxyRoute
  else if p = "/" then some HandlerId.staticRoute
  else none

/-- The `mux.es` list: slash-terminated patterns sorted by decreasing
length, scanned front to back for the first (hence longest) prefix
match. -/
def muxES : List (String × HandlerId) :=
  [("/api/tasks/", HandlerId.tasksProxyRoute),
   ("/", HandlerId.staticRoute)]

/-- Subtree lookup over `muxES`. -/
def muxMatchSubtree (p : String) : Option HandlerId :=
  (muxES.find? (fun e => strStartsWith p e.1)).map (fun e => e.2)

/-- `ServeMux.match`: exact map hit first, else longest subtree hit. -/
def muxMatch (p : String) : Option HandlerId :=
  match findExact p with
  | some h => some h
  | none => muxMatchSubtree p

/-- `ServeMux.shouldRedirectRLocked` applied to the cleaned path: a
path that is not itself registered but whose slash-extension is
registered gets redirected to the slash form. -/
def shouldRedirectToSlash (p : String) : Bool :=
  if (findExact p).isSome then false
  else if p = "" then false
  else if (findExact (p ++ "/")).isSome then decide (lastChar p ≠ some '/')
  else false

/-- Outcome of `ServeMux.Handler` for a request path. -/
inductive MuxOutcome where
  | redirect (loc : String)
  | handler (id : HandlerId)
  | notFound
deriving DecidableEq

/-- The dispatch decision of `ServeMux.Handler` (non-CONNECT requests):
first the trailing-slash redirect computed on the cleaned path, then
the clean-path redirect, then pattern matching.  The query string kept
by the redirect URL is not modelled. -/
def muxDispatch (p : String) : MuxOutcome :=
  let cp := cleanPath p
  if shouldRedirectToSlash cp then MuxOutcome.redirect (cp ++ "/")
  else if cp ≠ p then MuxOutcome.redirect cp
  else
    match muxMatch p with
    | some h => MuxOutcome.handler h
    | none => MuxOutcome.notFound

/-! ## Static file handler (createStaticFileHandler, server.go 90-118) -/

/-- Construction-time mode of the static handler: `createStaticFileHandler`
checks once whether the configured directory exists; if not it returns a
closure that ignores the file system forever. -/
inductive StaticMode where
  | failing
  | serving
deriving DecidableEq

/-- The warning printed once when the static directory is missing. -/
def staticDirWarning (dir : String) : String :=
  "Warning: Static directory " ++ dir ++ " does not exist\n"

/-- The value produced by `createStaticFileHandler`: the captured mode
and whatever it logged during construction. -/
structure ConstructedStatic where
  mode : StaticMode
  logs : List String
deriving DecidableEq

/-- Models `createStaticFileHandler` run against the file system as it
is at construction time.  The Go code takes the failing branch exactly
when `os.IsNotExist(os.Stat(dir))`: nothing at all exists at the path.
A regular file at the path makes the Stat succeed, so construction
enters serving mode with no warning. -/
def createStaticFileHandler (cfg : Config) (fs0 : FS) : ConstructedStatic :=
  if osStatExists fs0 cfg.static.directory then
    { mode := StaticMode.serving, logs := [] }
  else
    { mode := StaticMode.failing, logs := [staticDirWarning cfg.static.directory] }

/-- Boolean string suffix test (`strings.HasSuffix`). -/
def strEndsWith (s suf : String) : Bool :=
  suf.data.isSuffixOf s.data

/-- Models `strings.TrimSuffix(s, "/")`: drops one trailing slash. -/
def trimSuffixSlash (s : String) : String :=
  if lastChar s = some '/' then String.mk s.data.dropLast else s

/-- Models `path.Base` for the URL paths occurring here: the last
slash-separated element, `/` when the path consists only of slashes,
`.` when it is empty. -/
def pathBase (s : String) : String :=
  if s = "" then "."
  else
    match (segsOf s).getLast? with
    | some x => x
    | none => "/"

/-- The URL-side name `http.FileServer` hands to `serveFile`:
`path.Clean("/" + upath)`, always `/` or a rooted slash-free-segment
path with no trailing slash. -/
def cleanedURLPath (p : String) : String :=
  rootedPath (cleanSegs (segsOf ("/" ++ p)))

/-- The file-system location `http.Dir(dir).Open(name)` reads, i.e.
`filepath.Join(dir, name)` for the cleaned rooted names produced by
`serveFile`: the root itself for `/`, otherwise the root extended by
the name.  (`filepath.Join` also canonicalises `dir` itself, e.g.
`./public` to `public`; that renaming is injective on these locations
and the model keys its file system by the un-canonicalised form
throughout, construction-time `os.Stat(dir)` included.) -/
def dirOpenPath (dir name : String) : String :=
  if name = "/" then dir else dir ++ name

/-- Models `net/http.serveFile(w, r, http.Dir(dir), cleanedURLPath p,
redirect=true)` on the already-rooted URL path `p`: the leading
`/index.html` redirect, the open of the cleaned location, the canonical
trailing-slash redirects, index-file serving for directories and the
directory listing fallback.  Returns the response and the list of
file-system locations opened.  The `Content-Type`/`Last-Modified`
handling of `serveContent`, range requests, and the entry names inside
the generated listing HTML are not touched by any verified property and
are not modelled. -/
def serveFileAt (fs : FS) (dir : String) (p : String) :
    Response × List String :=
  if strEndsWith p "/index.html" then
    ({ status := 301, headers := [("Location", "./")]
       body := Body.text "Moved Permanently" }, [])
  else
    let name := cleanedURLPath p
    let loc := dirOpenPath dir name
    match statAt fs loc with
    | StatKind.missing =>
        ({ status := 404, headers := plainTextErrHeaders
           body := Body.text "404 page not found\n" }, [loc])
    | StatKind.dirEntry =>
        if lastChar p ≠ some '/' then
          ({ status := 301, headers := [("Location", pathBase p ++ "/")]
             body := Body.text "Moved Permanently" }, [loc])
        else
          let index := trimSuffixSlash name ++ "/index.html"
          let indexLoc := dirOpenPath dir index
          match fs.files indexLoc with
          | some content =>
              ({ status := 200, headers := [], body := Body.text content },
                [loc, indexLoc])
          | none =>
              ({ status := 200
                 headers := [("Content-Type", "text/html; charset=utf-8")]
                 body := Body.text "directory listing" }, [loc, indexLoc])
    | StatKind.fileEntry content =>
        if lastChar p = some '/' then
          ({ status := 301, headers := [("Location", "../" ++ pathBase p)]
             body := Body.text "Moved Permanently" }, [loc])
        else
          ({ status := 200, headers := [], body := Body.text content }, [loc])

/-- The serving closure of `createStaticFileHandler` (server.go
103-117): cache header first, then the reserved-prefix check, then the
`http.FileServer` fallthrough (which roots the path before serving, as
`FileServer.ServeHTTP` does). -/
def serveStaticBody (cfg : Config) (fs : FS) (p : String) :
    Response × List String :=
  let cacheHeaders :=
    if cfg.static.cacheMaxAge ≠ "" then
      [("Cache-Control", "max-age=" ++ cfg.static.cacheMaxAge)]
    else []
  if strStartsWith p "/api" then
    ({ status := 404
       headers := cacheHeaders ++ plainTextErrHeaders
       body := Body.text "404 page not found\n" }, [])
  else
    let up := if strStartsWith p "/" then p else "/" ++ p
    let pr := serveFileAt fs cfg.static.directory up
    ({ pr.1 with headers := cacheHeaders ++ pr.1.headers }, pr.2)

/-- The static handler at request time.  In failing mode the response
is the constant `http.Error(w, "Static directory not found", 404)` and
the request-time file system is never consulted. -/
def staticServe (cfg : Config) (hc : ConstructedStatic) (fs : FS)
    (p : String) : Response × List String :=
  match hc.mode with
  | StaticMode.failing =>
      ({ status := 404
         headers := plainTextErrHeaders
         body := Body.text "Static directory not found\n" }, [])
  | StaticMode.serving => serveStaticBody cfg fs p

/-! ## Requests and the API handlers -/

/-- An inbound HTTP request as the handlers see it. -/
structure Request where
  method : String
  path : String
  rawQuery : String
  host : String
  remoteAddr : String
  headers : List (String × String)
  reqBody : String
deriving DecidableEq

/-- The clock and wall-time environment a handler runs in: the RFC3339
rendering of the current instant used in payload timestamps, and the
nanosecond clock with its next read index. -/
structure TimeEnv where
  nowString : String
  reads : Nat → Int
  idx : Nat

/-- Models `handleHello` (server.go 123-135).  `encoding/json` emits
map keys sorted. -/
def handleHello (t : TimeEnv) (r : Request) : Response :=
  { status := 200
    headers := [("Content-Type", "application/json")]
    body := Body.jsonObj
      [("message", JField.leaf (JLeaf.jstr "Hello from FeatherJet!")),
       ("method", JField.leaf (JLeaf.jstr r.method)),
       ("path", JField.leaf (JLeaf.jstr r.path)),
       ("timestamp", JField.leaf (JLeaf.jstr t.nowString))] }

/-- Models `handleStatus` (server.go 138-151).  The uptime field holds
the raw duration value; its `Duration.String` rendering is not
modelled. -/
def handleStatus (t : TimeEnv) : Response :=
  { status := 200
    headers := [("Content-Type", "application/json")]
    body := Body.jsonObj
      [("server", JField.leaf (JLeaf.jstr "FeatherJet")),
       ("status", JField.leaf (JLeaf.jstr "healthy")),
       ("timestamp", JField.leaf (JLeaf.jstr t.nowString)),
       ("uptime", JField.leaf (JLeaf.jint (handleStatusUptime t.reads t.idx).1)),
       ("version", JField.leaf (JLeaf.jstr "1.0.0"))] }

/-- The static-directory sub-object built by `handleInfo` from a
per-request `os.Stat`. -/
def infoStaticFields (cfg : Config) (fs : FS) : List (String × JLeaf) :=
  if fs.dirExists cfg.static.directory then
    [("directory", JLeaf.jstr cfg.static.directory),
     ("exists", JLeaf.jbool true),
     ("is_directory", JLeaf.jbool true)]
  else if (fs.files cfg.static.directory).isSome then
    [("directory", JLeaf.jstr cfg.static.directory),
     ("exists", JLeaf.jbool true),
     ("is_directory", JLeaf.jbool false)]
  else
    [("directory", JLeaf.jstr cfg.static.directory),
     ("exists", JLeaf.jbool false)]

/-- Models `handleInfo` (server.go 154-186). -/
def handleInfo (cfg : Config) (fs : FS) (t : TimeEnv) : Response :=
  { status := 200
    headers := [("Content-Type", "application/json")]
    body := Body.jsonObj
      [("middleware", JField.node
          [("compression_enabled", JLeaf.jbool cfg.middleware.enableCompression),
           ("cors_enabled", JLeaf.jbool cfg.middleware.enableCORS),
           ("request_logging", JLeaf.jbool cfg.logging.enableRequestLogging)]),
       ("server", JField.node
          [("host", JLeaf.jstr cfg.server.host),
           ("name", JLeaf.jstr "FeatherJet"),
           ("port", JLeaf.jint cfg.server.port),
           ("version", JLeaf.jstr "1.0.0")]),
       ("static", JField.node (infoStaticFields cfg fs)),
       ("timestamp", JField.leaf (JLeaf.jstr t.nowString))] }

/-! ## Reverse proxy (handleTasksProxy, server.go 49-53)

`handleTasksProxy` executes, on every call,
`target, _ := url.Parse("http://localhost:8080")` followed by
`httputil.NewSingleHostReverseProxy(target).ServeHTTP(w, r)`. -/

/-- A parsed URL (the fields of `net/url.URL` the proxy touches). -/
structure URL where
  scheme : String
  host : String
  path : String
  rawQuery : String
deriving DecidableEq

/-- The literal handed to `url.Parse` inside `handleTasksProxy`. -/
def proxyTargetLiteral : String := "http://localhost:8080"

/-- The value `url.Parse "http://localhost:8080"` produces: scheme
`http`, authority `localhost:8080`, empty path and query. -/
def proxyTarget : URL :=
  { scheme := "http", host := "localhost:8080", path := "", rawQuery := "" }

/-- Observable resolution work: one event per `url.Parse` call. -/
inductive ServerEvent where
  | parseTarget (s : String)
deriving DecidableEq

/-- Events emitted while `server.New` runs (`New`, `setupRoutes` and
`setupMiddleware` contain no `url.Parse` call and read no proxy
configuration). -/
def newServerEvents (_cfg : Config) : List ServerEvent := []

/-- The outbound request the proxy hands to the transport. -/
structure OutboundRequest where
  url : URL
  method : String
  host : String
  headers : List (String × String)
  reqBody : String
deriving DecidableEq

/-- Models `singleJoiningSlash` from net/http/httputil. -/
def singleJoiningSlash (a b : String) : String :=
  let aslash := lastChar a = some '/'
  let bslash := strStartsWith b "/"
  if aslash ∧ bslash then a ++ String.mk (b.data.drop 1)
  else if ¬ aslash ∧ ¬ bslash then a ++ "/" ++ b
  else a ++ b

/-- The Director installed by `NewSingleHostReverseProxy(target)`: it
rewrites the URL scheme, host and path, merges the query, and sets an
empty User-Agent when the inbound request had none.  It does not touch
`req.Host`. -/
def proxyDirector (target : URL) (r : Request) : OutboundRequest :=
  { url :=
      { scheme := target.scheme
        host := target.host
        path := singleJoiningSlash target.path r.path
        rawQuery :=
          if target.rawQuery = "" ∨ r.rawQuery = "" then
            target.rawQuery ++ r.rawQuery
          else
            target.rawQuery ++ "&" ++ r.rawQuery }
    method := r.method
    host := r.host
    headers :=
      if hasHeader r.headers "User-Agent" then r.headers
      else r.headers ++ [("User-Agent", "")]
    reqBody := r.reqBody }

/-- The hop-by-hop header names `ReverseProxy.ServeHTTP` always
strips. -/
def hopByHopHeaderNames : List String :=
  ["Connection", "Proxy-Connection", "Keep-Alive", "Proxy-Authenticate",
   "Proxy-Authorization", "Te", "Trailer", "Transfer-Encoding", "Upgrade"]

/-- Trims the ASCII whitespace `textproto.TrimString` removes. -/
def trimOWS (l : List Char) : List Char :=
  ((l.dropWhile (fun c => c = ' ' ∨ c = '\t')).reverse.dropWhile
    (fun c => c = ' ' ∨ c = '\t')).reverse

/-- Header names listed in the Connection header lines, each comma
separated token trimmed (`removeConnectionHeaders`). -/
def connectionTokens (hs : List (String × String)) : List String :=
  ((hs.filterMap (fun kv => if kv.1 = "Connection" then some kv.2 else none)).flatMap
    (fun v => (splitChar ',' v.data).map trimOWS)).filterMap
    (fun l => if l = [] then none else some (String.mk l))

/-- Hop-by-hop removal performed on the outbound headers: first the
headers named by Connection lines, then the fixed list. -/
def removeHopByHop (hs : List (String × String)) : List (String × String) :=
  (hs.filter (fun kv => kv.1 ∉ connectionTokens hs)).filter
    (fun kv => kv.1 ∉ hopByHopHeaderNames)

/-- The client IP `net.SplitHostPort` extracts from RemoteAddr, when it
parses; the bracketed IPv6 form is not modelled. -/
def splitHostPortHost (s : String) : Option String :=
  if s.data.contains ':' then
    some (String.mk ((s.data.reverse.dropWhile (fun c => c ≠ ':')).drop 1).reverse)
  else none

/-- Deletes every line of a header name and appends one with the given
value (`Header.Set`; the position of the set line within the list is
not significant). -/
def headerSet (hs : List (String × String)) (n v : String) :
    List (String × String) :=
  hs.filter (fun kv => kv.1 ≠ n) ++ [(n, v)]

/-- The X-Forwarded-For handling of `ReverseProxy.ServeHTTP`: the
client IP is appended to any prior value. -/
def setXForwardedFor (clientIP : String) (hs : List (String × String)) :
    List (String × String) :=
  let prior := hs.filterMap
    (fun kv => if kv.1 = "X-Forwarded-For" then some kv.2 else none)
  let v :=
    match prior with
    | [] => clientIP
    | p0 :: rest =>
        (rest.foldl (fun acc s => acc ++ ", " ++ s) p0) ++ ", " ++ clientIP
  headerSet hs "X-Forwarded-For" v

/-- The outbound request actually sent upstream: Director rewrite, then
hop-by-hop removal, then X-Forwarded-For. -/
def reverseProxyOutbound (r : Request) : OutboundRequest :=
  let outreq := proxyDirector proxyTarget r
  let hs := removeHopByHop outreq.headers
  { outreq with
      headers :=
        match splitHostPortHost r.remoteAddr with
        | some ip => setXForwardedFor ip hs
        | none => hs }

/-- One `handleTasksProxy` invocation: the `url.Parse` event it
performs and the outbound request it produces. -/
def handleTasksProxyCall (r : Request) : List ServerEvent × OutboundRequest :=
  ([ServerEvent.parseTarget proxyTargetLiteral], reverseProxyOutbound r)

/-! ## Top-level dispatch (the composed mux behaviour per request) -/

/-- The whole per-request pipeline below the middleware: ServeMux
dispatch, then the chosen handler.  `upstream` is the backend the proxy
forwards to (its response is relayed verbatim).  The second component
lists the static-root file-system locations opened while producing the
response. -/
def serveRequest (cfg : Config) (hc : ConstructedStatic) (fs : FS)
    (t : TimeEnv) (upstream : OutboundRequest → Response) (r : Request) :
    Response × List String :=
  match muxDispatch r.path with
  | MuxOutcome.redirect loc =>
      ({ status := 301
         headers := [("Location", loc)]
         body := Body.text "Moved Permanently" }, [])
  | MuxOutcome.notFound =>
      ({ status := 404
         headers := plainTextErrHeaders
         body := Body.text "404 page not found\n" }, [])
  | MuxOutcome.handler HandlerId.helloRoute => (handleHello t r, [])
  | MuxOutcome.handler HandlerId.statusRoute => (handleStatus t, [])
  | MuxOutcome.handler HandlerId.infoRoute => (handleInfo cfg fs t, [])
  | MuxOutcome.handler HandlerId.tasksProxyRoute =>
      (upstream (handleTasksProxyCall r).2, [])
  | MuxOutcome.handler HandlerId.staticRoute => staticServe cfg hc fs r.path

/-! ## Middleware composition (setupMiddleware, server.go 70-87) -/

/-- The wrapped-handler graph: the mux at the core, decorated by the
three middleware constructors from internal/middleware. -/
inductive MWHandler where
  | muxCore
  | security (inner : MWHandler)
  | cors (inner : MWHandler)
  | logger (inner : MWHandler)
deriving DecidableEq

/-- Models `setupMiddleware`: Security is always applied, CORS wraps it
if enabled, Logger wraps everything if enabled. -/
def setupMiddleware (cfg : Config) : MWHandler :=
  let handler := MWHandler.muxCore
  let handler := MWHandler.security handler
  let handler := if cfg.middleware.enableCORS then MWHandler.cors handler else handler
  let handler := if cfg.logging.enableRequestLogging then MWHandler.logger handler else handler
  handler

/-- Names of the middleware layers. -/
inductive LayerTag where
  | securityTag
  | corsTag
  | loggerTag
deriving DecidableEq

/-- The layers of a wrapped handler, outermost first. -/
def layersOuterToInner : MWHandler → List LayerTag
  | MWHandler.muxCore => []
  | MWHandler.security h => LayerTag.securityTag :: layersOuterToInner h
  | MWHandler.cors h => LayerTag.corsTag :: layersOuterToInner h
  | MWHandler.logger h => LayerTag.loggerTag :: layersOuterToInner h

/-- What sits at the centre of a wrapped handler. -/
def mwCore : MWHandler → MWHandler
  | MWHandler.muxCore => MWHandler.muxCore
  | MWHandler.security h => mwCore h
  | MWHandler.cors h => mwCore h
  | MWHandler.logger h => mwCore h

/-! ## Concrete fixtures used by witnesses and counterexamples -/

/-- A file system holding the default static root, an index page and a
script inside it, and a sensitive file outside it at the location a
naive resolution of a traversal path would reach. -/
def fsW : FS :=
  { files := fun p =>
      if p = "/secret.txt" then some "top secret"
      else if p = "./public/index.html" then some "homepage"
      else if p = "./public/app.js" then some "console.log(1)"
      else none
    dirExists := fun d => d = "./public" }

/-- A file system with a regular file squatting the static root path:
the root directory does not exist, but `os.Stat` succeeds. -/
def fsFileRoot : FS :=
  { files := fun p => if p = "./public" then some "not a directory" else none
    dirExists := fun _ => false }

/-- A file system with a directory at the configuration path: no file
exists there, but `os.Stat` succeeds and `os.ReadFile` fails. -/
def fsDirCfg : FS :=
  { files := fun _ => none
    dirExists := fun d => d = "config.yaml" }

/-- An empty file system: no files, no directories. -/
def fsNone : FS :=
  { files := fun _ => none, dirExists := fun _ => false }

/-- A fixed time environment. -/
def timeW : TimeEnv :=
  { nowString := "2026-01-01T00:00:00Z", reads := fun n => Int.ofNat n, idx := 0 }

/-- A fixed upstream backend. -/
def upW : OutboundRequest → Response :=
  fun _ => { status := 200, headers := [], body := Body.text "upstream" }

/-- A GET request at the given path. -/
def reqW (p : String) : Request :=
  { method := "GET"
    path := p
    rawQuery := ""
    host := "example.com:8081"
    remoteAddr := "203.0.113.9:4242"
    headers := [("Accept", "text/html")]
    reqBody := "" }

/-- A clock for a process that has been up for two hours at read index
five, with consecutive readings one nanosecond apart. -/
def readsW : Nat → Int :=
  fun n => if n = 0 then 0 else 7200000000000 + Int.ofNat n

/-- A YAML decoder that is never consulted. -/
def yamlParseW : String → Except String Config :=
  fun _ => Except.error "unused"

/-- The static handler constructed against `fsW` (directory present). -/
def hcW : ConstructedStatic := createStaticFileHandler defaultConfig fsW

/-! ## Helper lemmas -/

theorem str_ext {s t : String} (h : s.data = t.data) : s = t := by
  cases s; cases t; cases h; rfl

theorem str_empty_append (s : String) : "" ++ s = s := by
  apply str_ext
  rw [String.data_append]
  rfl

theorem append_slash_data (p : String) : (p ++ "/").data = p.data ++ ['/'] := by
  rw [String.data_append]

theorem append_slash_getLast (p q : String) (h : p ++ "/" = q) :
    q.data.getLast? = some '/' := by
  rw [← h, append_slash_data]
  exact List.getLast?_concat _

theorem append_slash_inj {p q : String} (h : p ++ "/" = q ++ "/") : p = q := by
  apply str_ext
  have h2 : p.data ++ ['/'] = q.data ++ ['/'] := by
    rw [← append_slash_data, ← append_slash_data, h]
  exact (List.append_left_inj _).mp h2

theorem strStartsWith_self (p : String) : strStartsWith p p = true := by
  unfold strStartsWith
  rw [List.isPrefixOf_iff_prefix]

theorem strStartsWith_root_of_api {p : String}
    (h : strStartsWith p "/api" = true) : strStartsWith p "/" = true := by
  unfold strStartsWith at h ⊢
  rw [List.isPrefixOf_iff_prefix] at h ⊢
  exact List.IsPrefix.trans (by decide) h

theorem ne_root_of_api {p : String}
    (h : strStartsWith p "/api" = true) : p ≠ "/" := by
  intro he
  subst he
  exact absurd h (by decide)

theorem ne_empty_of_api {p : String}
    (h : strStartsWith p "/api" = true) : p ≠ "" := by
  intro he
  subst he
  exact absurd h (by decide)

theorem findExact_eq_none {p : String}
    (h1 : p ≠ "/api/hello") (h2 : p ≠ "/api/status") (h3 : p ≠ "/api/info")
    (h4 : p ≠ "/api/tasks/") (h5 : p ≠ "/api/tasks") (h6 : p ≠ "/") :
    findExact p = none := by
  unfold findExact
  rw [if_neg h1, if_neg h2, if_neg h3, if_neg h4, if_neg h5, if_neg h6]

theorem findExact_append_slash {p : String}
    (h1 : p ≠ "/api/tasks") (h2 : p ≠ "") :
    findExact (p ++ "/") = none := by
  apply findExact_eq_none
  · intro h
    exact absurd (append_slash_getLast p _ h) (by decide)
  · intro h
    exact absurd (append_slash_getLast p _ h) (by decide)
  · intro h
    exact absurd (append_slash_getLast p _ h) (by decide)
  · intro h
    exact h1 (append_slash_inj (h.trans (by decide)))
  · intro h
    exact absurd (append_slash_getLast p _ h) (by decide)
  · intro h
    exact h2 (append_slash_inj (h.trans (by decide)))

theorem shouldRedirectToSlash_eq_false {p : String}
    (h : findExact (p ++ "/") = none) :
    shouldRedirectToSlash p = false := by
  unfold shouldRedirectToSlash
  rw [h]
  simp

theorem cleanFold_mem {l acc : List String}
    (hacc : ∀ x ∈ acc, x ≠ ".." ∧ x ≠ "." ∧ x ≠ "")
    (hl : ∀ x ∈ l, x ≠ "") :
    ∀ x ∈ List.foldl cleanStep acc l, x ≠ ".." ∧ x ≠ "." ∧ x ≠ "" := by
  induction l generalizing acc with
  | nil => exact hacc
  | cons s rest ih =>
    intro x hx
    refine ih ?_ (fun y hy => hl y (List.mem_cons_of_mem s hy)) x hx
    intro y hy
    unfold cleanStep at hy
    by_cases hdot : s = "."
    · rw [if_pos hdot] at hy
      exact hacc y hy
    · rw [if_neg hdot] at hy
      by_cases hdd : s = ".."
      · rw [if_pos hdd] at hy
        exact hacc y (List.dropLast_subset acc hy)
      · rw [if_neg hdd] at hy
        rcases List.mem_append.mp hy with hy1 | hy2
        · exact hacc y hy1
        · rw [List.mem_singleton.mp hy2]
          exact ⟨hdd, hdot, hl s (List.mem_cons_self s rest)⟩

theorem segsOf_mem_ne_empty {s : String} : ∀ x ∈ segsOf s, x ≠ "" := by
  intro x hx
  unfold segsOf at hx
  rcases List.mem_map.mp hx with ⟨l, hl, hmk⟩
  have hne : l ≠ [] := by simpa using (List.mem_filter.mp hl).2
  intro hxe
  apply hne
  have : (String.mk l).data = ("" : String).data := by rw [hmk, hxe]
  exact this

theorem cleanSegs_segsOf_mem {s : String} :
    ∀ x ∈ cleanSegs (segsOf s), x ≠ ".." ∧ x ≠ "." ∧ x ≠ "" := by
  unfold cleanSegs
  exact cleanFold_mem (by intro x hx; cases hx) segsOf_mem_ne_empty

theorem cleanFold_pred {P : String → Prop} {l acc : List String}
    (hacc : ∀ x ∈ acc, P x) (hl : ∀ x ∈ l, P x) :
    ∀ x ∈ List.foldl cleanStep acc l, P x := by
  induction l generalizing acc with
  | nil => exact hacc
  | cons s rest ih =>
    intro x hx
    refine ih ?_ (fun y hy => hl y (List.mem_cons_of_mem s hy)) x hx
    intro y hy
    unfold cleanStep at hy
    by_cases hdot : s = "."
    · rw [if_pos hdot] at hy
      exact hacc y hy
    · rw [if_neg hdot] at hy
      by_cases hdd : s = ".."
      · rw [if_pos hdd] at hy
        exact hacc y (List.dropLast_subset acc hy)
      · rw [if_neg hdd] at hy
        rcases List.mem_append.mp hy with hy1 | hy2
        · exact hacc y hy1
        · rw [List.mem_singleton.mp hy2]
          exact hl s (List.mem_cons_self s rest)

theorem splitChar_no_sep {sep : Char} {cs : List Char} :
    ∀ l ∈ splitChar sep cs, sep ∉ l := by
  induction cs with
  | nil =>
    intro l hl
    rw [List.mem_singleton.mp hl]
    exact List.not_mem_nil sep
  | cons c rest ih =>
    intro l hl
    unfold splitChar at hl
    cases hsp : splitChar sep rest with
    | nil =>
      simp only [hsp] at hl
      rw [List.mem_singleton.mp hl]
      exact List.not_mem_nil sep
    | cons cur acc =>
      simp only [hsp] at hl
      by_cases hc : c = sep
      · rw [if_pos hc] at hl
        rcases List.mem_cons.mp hl with h1 | h2
        · rw [h1]
          exact List.not_mem_nil sep
        · exact ih l (hsp ▸ h2)
      · rw [if_neg hc] at hl
        rcases List.mem_cons.mp hl with h1 | h2
        · rw [h1]
          intro hmem
          rcases List.mem_cons.mp hmem with hs1 | hs2
          · exact hc hs1.symm
          · exact ih cur (hsp ▸ List.mem_cons_self cur acc) hs2
        · exact ih l (hsp ▸ List.mem_cons_of_mem cur h2)

theorem segsOf_no_slash {s : String} : ∀ x ∈ segsOf s, '/' ∉ x.data := by
  intro x hx
  unfold segsOf at hx
  rcases List.mem_map.mp hx with ⟨l, hl, hmk⟩
  have hmem : l ∈ splitChar '/' s.data := (List.mem_filter.mp hl).1
  rw [← hmk]
  exact splitChar_no_sep l hmem

theorem cleanSegs_segsOf_no_slash {s : String} :
    ∀ x ∈ cleanSegs (segsOf s), '/' ∉ x.data := by
  unfold cleanSegs
  exact cleanFold_pred (by intro x hx; cases hx) segsOf_no_slash

theorem intercalate_cons_cons {α : Type} (s a b : List α) (L : List (List α)) :
    List.intercalate s (a :: b :: L) = a ++ s ++ List.intercalate s (b :: L) := by
  simp [List.intercalate]

theorem intercalate_singleton {α : Type} (s a : List α) :
    List.intercalate s [a] = a := by
  simp [List.intercalate]

theorem intercalate_concat {α : Type} (s x : List α) :
    ∀ L : List (List α), L ≠ [] →
      List.intercalate s (L ++ [x]) = List.intercalate s L ++ s ++ x := by
  intro L
  induction L with
  | nil => intro h; exact absurd rfl h
  | cons a L2 ih =>
    intro _
    cases L2 with
    | nil =>
      rw [List.cons_append, List.nil_append, intercalate_cons_cons,
        intercalate_singleton, intercalate_singleton]
    | cons b L3 =>
      have ih2 := ih (by simp)
      rw [show (b :: L3) ++ [x] = b :: (L3 ++ [x]) from rfl] at ih2
      show List.intercalate s (a :: b :: (L3 ++ [x])) =
        List.intercalate s (a :: b :: L3) ++ s ++ x
      rw [intercalate_cons_cons, ih2, intercalate_cons_cons]
      simp [List.append_assoc]

theorem getLast?_rootedPath {segs : List String} (hne : segs ≠ [])
    (hmem : ∀ x ∈ segs, x ≠ "" ∧ '/' ∉ x.data) :
    ∃ c, lastChar (rootedPath segs) = some c ∧ c ≠ '/' := by
  rcases List.eq_nil_or_concat (segs.map String.data) with hmap | ⟨L2, x, hmap⟩
  · exact absurd (List.map_eq_nil_iff.mp hmap) hne
  rw [List.concat_eq_append] at hmap
  have hxmem : x ∈ segs.map String.data := by
    rw [hmap]
    exact List.mem_append_right _ (List.mem_singleton.mpr rfl)
  rcases List.mem_map.mp hxmem with ⟨y, hy, hyx⟩
  have hxne : x ≠ [] := by
    intro hx
    refine (hmem y hy).1 (str_ext ?_)
    rw [hyx, hx]
  have hxslash : '/' ∉ x := by
    rw [← hyx]
    exact (hmem y hy).2
  obtain ⟨c, hc, hcm⟩ : ∃ c, x.getLast? = some c ∧ c ∈ x :=
    ⟨x.getLast hxne, List.getLast?_eq_getLast x hxne, List.getLast_mem hxne⟩
  refine ⟨c, ?_, fun he => hxslash (he ▸ hcm)⟩
  show ('/' :: List.intercalate ['/'] (segs.map String.data)).getLast? = some c
  rcases List.eq_nil_or_concat L2 with h2 | ⟨_, _, h2⟩
  · rw [hmap, h2, List.nil_append, intercalate_singleton]
    rw [show ('/' :: x) = ['/'] ++ x from rfl, List.getLast?_append, hc]
    rfl
  · have h2ne : L2 ≠ [] := by rw [h2]; simp
    rw [hmap, intercalate_concat _ _ _ h2ne]
    rw [show ('/' :: (List.intercalate ['/'] L2 ++ ['/'] ++ x)) =
      ('/' :: (List.intercalate ['/'] L2 ++ ['/'])) ++ x from by simp,
      List.getLast?_append, hc]
    rfl

theorem trimSuffixSlash_id {s : String}
    (h : ∃ c, lastChar s = some c ∧ c ≠ '/') : trimSuffixSlash s = s := by
  obtain ⟨c, hc, hne⟩ := h
  unfold trimSuffixSlash
  rw [hc, if_neg (fun he => hne (Option.some.inj he))]

theorem rootedPath_concat_index {segs : List String}
    (hmem : ∀ x ∈ segs, x ≠ "" ∧ '/' ∉ x.data) :
    trimSuffixSlash (rootedPath segs) ++ "/index.html" =
      rootedPath (segs ++ ["index.html"]) := by
  by_cases hne : segs = []
  · subst hne
    decide
  · rw [trimSuffixSlash_id (getLast?_rootedPath hne hmem)]
    apply str_ext
    rw [String.data_append]
    show ('/' :: List.intercalate ['/'] (segs.map String.data)) ++ "/index.html".data =
      '/' :: List.intercalate ['/'] ((segs ++ ["index.html"]).map String.data)
    rw [List.map_append,
      show List.map String.data ["index.html"] = ["index.html".data] from rfl,
      intercalate_concat _ _ _ (by simpa using hne),
      show "/index.html".data = '/' :: "index.html".data from by decide]
    simp

theorem hasHeader_append (h1 h2 : List (String × String)) (n : String) :
    hasHeader (h1 ++ h2) n = (hasHeader h1 n || hasHeader h2 n) := by
  simp [hasHeader, List.any_append]

theorem serveFileAt_no_cache (fs : FS) (dir p : String) :
    hasHeader (serveFileAt fs dir p).1.headers "Cache-Control" = false := by
  by_cases h1 : strEndsWith p "/index.html" = true
  · simp [serveFileAt, h1, hasHeader]
  · have h1f : strEndsWith p "/index.html" = false := by simpa using h1
    cases hst : statAt fs (dirOpenPath dir (cleanedURLPath p)) with
    | missing => simp [serveFileAt, h1f, hst, hasHeader, plainTextErrHeaders]
    | dirEntry =>
        by_cases h2 : lastChar p = some '/'
        · cases hidx : fs.files (dirOpenPath dir
              (trimSuffixSlash (cleanedURLPath p) ++ "/index.html")) with
          | none => simp [serveFileAt, h1f, hst, h2, hidx, hasHeader]
          | some c => simp [serveFileAt, h1f, hst, h2, hidx, hasHeader]
        · simp [serveFileAt, h1f, hst, h2, hasHeader]
    | fileEntry c =>
        by_cases h2 : lastChar p = some '/'
        · simp [serveFileAt, h1f, hst, h2, hasHeader]
        · simp [serveFileAt, h1f, hst, h2, hasHeader]

theorem serveFileAt_lookups (fs : FS) (dir p : String) :
    ∀ q ∈ (serveFileAt fs dir p).2,
      ∃ segs, q = dirOpenPath dir (rootedPath segs) ∧
        ".." ∉ segs ∧ "." ∉ segs ∧ "" ∉ segs := by
  have hS : ∀ x ∈ cleanSegs (segsOf ("/" ++ p)),
      x ≠ ".." ∧ x ≠ "." ∧ x ≠ "" := cleanSegs_segsOf_mem
  have hmem : ∀ x ∈ cleanSegs (segsOf ("/" ++ p)), x ≠ "" ∧ '/' ∉ x.data :=
    fun x hx => ⟨(hS x hx).2.2, cleanSegs_segsOf_no_slash x hx⟩
  have hname : ∃ segs, dirOpenPath dir (cleanedURLPath p) =
      dirOpenPath dir (rootedPath segs) ∧
      ".." ∉ segs ∧ "." ∉ segs ∧ "" ∉ segs := by
    refine ⟨cleanSegs (segsOf ("/" ++ p)), rfl, ?_, ?_, ?_⟩
    · exact fun hm => (hS _ hm).1 rfl
    · exact fun hm => (hS _ hm).2.1 rfl
    · exact fun hm => (hS _ hm).2.2 rfl
  have hindex : ∃ segs, dirOpenPath dir
      (trimSuffixSlash (cleanedURLPath p) ++ "/index.html") =
      dirOpenPath dir (rootedPath segs) ∧
      ".." ∉ segs ∧ "." ∉ segs ∧ "" ∉ segs := by
    refine ⟨cleanSegs (segsOf ("/" ++ p)) ++ ["index.html"], ?_, ?_, ?_, ?_⟩
    · rw [show cleanedURLPath p =
        rootedPath (cleanSegs (segsOf ("/" ++ p))) from rfl,
        rootedPath_concat_index hmem]
    · intro hm
      rcases List.mem_append.mp hm with hm1 | hm2
      · exact (hS _ hm1).1 rfl
      · exact absurd (List.mem_singleton.mp hm2) (by decide)
    · intro hm
      rcases List.mem_append.mp hm with hm1 | hm2
      · exact (hS _ hm1).2.1 rfl
      · exact absurd (List.mem_singleton.mp hm2) (by decide)
    · intro hm
      rcases List.mem_append.mp hm with hm1 | hm2
      · exact (hS _ hm1).2.2 rfl
      · exact absurd (List.mem_singleton.mp hm2) (by decide)
  intro q hq
  by_cases h1 : strEndsWith p "/index.html" = true
  · simp [serveFileAt, h1] at hq
  · have h1f : strEndsWith p "/index.html" = false := by simpa using h1
    cases hst : statAt fs (dirOpenPath dir (cleanedURLPath p)) with
    | missing =>
        simp [serveFileAt, h1f, hst] at hq
        rw [hq]
        exact hname
    | dirEntry =>
        by_cases h2 : lastChar p = some '/'
        · cases hidx : fs.files (dirOpenPath dir
              (trimSuffixSlash (cleanedURLPath p) ++ "/index.html")) with
          | none =>
              simp [serveFileAt, h1f, hst, h2, hidx] at hq
              rcases hq with hq | hq
              · rw [hq]; exact hname
              · rw [hq]; exact hindex
          | some c =>
              simp [serveFileAt, h1f, hst, h2, hidx] at hq
              rcases hq with hq | hq
              · rw [hq]; exact hname
              · rw [hq]; exact hindex
        · simp [serveFileAt, h1f, hst, h2] at hq
          rw [hq]
          exact hname
    | fileEntry c =>
        by_cases h2 : lastChar p = some '/'
        · simp [serveFileAt, h1f, hst, h2] at hq
          rw [hq]
          exact hname
        · simp [serveFileAt, h1f, hst, h2] at hq
          rw [hq]
          exact hname

/-! ## Claim C6: middleware composition order -/

/-- Claim C6: the composed handler wraps the dispatcher with Security
innermost and unconditional, CORS next if and only if it is enabled,
Logging outermost if and only if request logging is enabled, each layer
applied at most once, around the bare mux. -/
theorem middleware_chain_fixed_order (cfg : Config) :
    layersOuterToInner (setupMiddleware cfg) =
      (if cfg.logging.enableRequestLogging then [LayerTag.loggerTag] else []) ++
      (if cfg.middleware.enableCORS then [LayerTag.corsTag] else []) ++
      [LayerTag.securityTag] ∧
    mwCore (setupMiddleware cfg) = MWHandler.muxCore ∧
    ∀ tg : LayerTag, (layersOuterToInner (setupMiddleware cfg)).count tg ≤ 1 := by
  rcases cfg with ⟨srv, st, ⟨lvl, rlog⟩, ⟨cors, comp⟩⟩
  cases rlog <;> cases cors <;>
    refine ⟨by simp [setupMiddleware, layersOuterToInner], by simp [setupMiddleware, mwCore], ?_⟩ <;>
    intro tg <;> cases tg <;> simp [setupMiddleware, layersOuterToInner]

/-! ## Claim C7: missing static root gives a permanently failing handler -/

/-- Claim C7 (amended): when nothing exists at the configured static
root path at construction time (the `os.IsNotExist` case of `os.Stat`),
the handler is built in failing mode, logs exactly one warning at
construction, and every later request gets the constant 404 response
with no file-system access, regardless of the request-time file system
and path. -/
theorem missing_root_permanent_notfound (cfg : Config) (fs0 : FS)
    (h : osStatExists fs0 cfg.static.directory = false) :
    (createStaticFileHandler cfg fs0).logs = [staticDirWarning cfg.static.directory] ∧
    ∀ (fs1 : FS) (p : String),
      staticServe cfg (createStaticFileHandler cfg fs0) fs1 p =
        ({ status := 404
           headers := plainTextErrHeaders
           body := Body.text "Static directory not found\n" }, []) := by
  constructor
  · simp [createStaticFileHandler, h]
  · intro fs1 p
    simp [createStaticFileHandler, h, staticServe]

/-- Witness for C7 at a concrete empty file system. -/
theorem missing_root_permanent_notfound_witness :
    osStatExists fsNone defaultConfig.static.directory = false ∧
    (createStaticFileHandler defaultConfig fsNone).logs =
      [staticDirWarning "./public"] ∧
    (staticServe defaultConfig (createStaticFileHandler defaultConfig fsNone)
        fsW "/index.html").1.status = 404 := by
  refine ⟨rfl, ?_, ?_⟩
  · exact (missing_root_permanent_notfound defaultConfig fsNone rfl).1
  · rw [(missing_root_permanent_notfound defaultConfig fsNone rfl).2 fsW "/index.html"]

/-- Counterexample for C7 as stated: with a regular file squatting the
static root path the root directory does not exist, yet construction
enters serving mode with no warning logged, and requests are served
with per-request file-system access (and not all of them with a
not-found response). -/
theorem static_root_file_counterexample :
    fsFileRoot.dirExists defaultConfig.static.directory = false ∧
    (createStaticFileHandler defaultConfig fsFileRoot).mode = StaticMode.serving ∧
    (createStaticFileHandler defaultConfig fsFileRoot).logs = [] ∧
    (staticServe defaultConfig (createStaticFileHandler defaultConfig fsFileRoot)
        fsFileRoot "/").1.status = 301 ∧
    ¬ (staticServe defaultConfig (createStaticFileHandler defaultConfig fsFileRoot)
        fsFileRoot "/missing.txt").2 = [] := by
  refine ⟨by decide, by decide, by decide, by decide, ?_⟩
  intro h
  rw [show (staticServe defaultConfig (createStaticFileHandler defaultConfig fsFileRoot)
    fsFileRoot "/missing.txt").2 = ["./public/missing.txt"] from by decide] at h
  exact List.noConfusion h

/-! ## Claim C8: exact routes win over subtree routes -/

/-- Claim C8: any path registered as an exact pattern that also matches
some registered subtree (slash-terminated) pattern dispatches to the
exact handler of that path. -/
theorem exact_route_wins (p : String) (hid : HandlerId)
    (hx : findExact p = some hid)
    (_hpre : ∃ e ∈ muxES, strStartsWith p e.1 = true) :
    muxDispatch p = MuxOutcome.handler hid := by
  unfold findExact at hx
  split_ifs at hx with h1 h2 h3 h4 h5 h6 <;>
    (injection hx with hx
     subst hx
     first
       | (subst h1; decide)
       | (subst h2; decide)
       | (subst h3; decide)
       | (subst h4; decide)
       | (subst h5; decide)
       | (subst h6; decide))

/-- Witness for C8: `/api/tasks` matches the exact route `/api/tasks`
and the subtree route `/` simultaneously and dispatches to the exact
(proxy) handler. -/
theorem exact_route_wins_witness :
    findExact "/api/tasks" = some HandlerId.tasksProxyRoute ∧
    muxDispatch "/api/tasks" = MuxOutcome.handler HandlerId.tasksProxyRoute := by
  refine ⟨by decide, ?_⟩
  exact exact_route_wins "/api/tasks" HandlerId.tasksProxyRoute (by decide)
    ⟨("/", HandlerId.staticRoute), by decide, by decide⟩

/-! ## Claim C9: handleStatus uptime is measured against the call instant -/

/-- Claim C9: the uptime reported by `handleStatus` is the difference
of two consecutive clock readings taken during the call itself, so it
is bounded by the gap between those readings and is unaffected by any
earlier clock history (in particular by how long the process has been
running); the value placed in the JSON body is exactly that gap. -/
theorem status_uptime_near_zero (reads : Nat → Int) (k : Nat) (eps : Int)
    (h : reads (k + 1) - reads k ≤ eps) :
    (handleStatusUptime reads k).1 = reads (k + 1) - reads k ∧
    (handleStatusUptime reads k).1 ≤ eps ∧
    (∀ reads2 : Nat → Int, reads2 k = reads k → reads2 (k + 1) = reads (k + 1) →
      (handleStatusUptime reads2 k).1 = (handleStatusUptime reads k).1) ∧
    ∀ ns : String,
      ∃ fields,
        (handleStatus { nowString := ns, reads := reads, idx := k }).body =
          Body.jsonObj fields ∧
        ("uptime", JField.leaf (JLeaf.jint (reads (k + 1) - reads k))) ∈ fields := by
  refine ⟨rfl, h, ?_, ?_⟩
  · intro reads2 hk hk1
    simp [handleStatusUptime, timeNow, timeSince, hk, hk1]
  · intro ns
    refine ⟨_, rfl, ?_⟩
    simp [handleStatusUptime, timeNow, timeSince]

/-- Witness for C9: a clock two hours after process start still yields
an uptime of one nanosecond. -/
theorem status_uptime_near_zero_witness :
    readsW 6 - readsW 5 ≤ 1 ∧
    (handleStatusUptime readsW 5).1 ≤ 1 ∧
    readsW 5 ≥ 7200000000000 := by
  refine ⟨by decide, ?_, by decide⟩
  exact (status_uptime_near_zero readsW 5 1 (by decide)).2.1

/-! ## Claim C10: Load on a missing file returns the defaults -/

/-- Claim C10 (amended): loading configuration from a path at which
nothing exists is not an error; `Load` returns the complete built-in
default configuration and no error. -/
theorem load_missing_file_defaults (yamlParse : String → Except String Config)
    (fs : FS) (cp : String) (h : osStatExists fs cp = false) :
    Load yamlParse fs cp = Except.ok defaultConfig ∧
    defaultConfig.server.host = "localhost" ∧
    defaultConfig.server.port = 8080 ∧
    defaultConfig.server.readTimeout = 30 * second ∧
    defaultConfig.server.writeTimeout = 30 * second ∧
    defaultConfig.server.idleTimeout = 120 * second ∧
    defaultConfig.static.directory = "./public" ∧
    defaultConfig.static.cacheMaxAge = "3600" ∧
    defaultConfig.logging.level = "info" ∧
    defaultConfig.logging.enableRequestLogging = true ∧
    defaultConfig.middleware.enableCORS = true ∧
    defaultConfig.middleware.enableCompression = false := by
  refine ⟨?_, rfl, rfl, rfl, rfl, rfl, rfl, rfl, rfl, rfl, rfl, rfl⟩
  unfold Load
  rw [h]
  rfl

/-- Witness for C10 at a concrete empty file system. -/
theorem load_missing_file_defaults_witness :
    osStatExists fsNone "config.yaml" = false ∧
    Load yamlParseW fsNone "config.yaml" = Except.ok defaultConfig := by
  exact ⟨rfl, (load_missing_file_defaults yamlParseW fsNone "config.yaml" rfl).1⟩

/-- Counterexample for C10 as stated: with a directory at the
configuration path no file exists there, yet `Load` does not return
the defaults with a nil error - the `os.Stat` check passes,
`os.ReadFile` fails, and the wrapped read error is returned. -/
theorem load_dir_at_config_counterexample :
    fsDirCfg.files "config.yaml" = none ∧
    Load yamlParseW fsDirCfg "config.yaml" =
      Except.error "failed to read config file" ∧
    ¬ Load yamlParseW fsDirCfg "config.yaml" = Except.ok defaultConfig := by
  refine ⟨rfl, rfl, ?_⟩
  intro h
  rw [show Load yamlParseW fsDirCfg "config.yaml" =
    Except.error "failed to read config file" from rfl] at h
  exact Except.noConfusion h

/-! ## Claim C1: unmatched API-prefixed paths -/

/-- Claim C1 (amended): a request whose path (already in normalized
form) begins with `/api` and matches no registered API route is
answered by the static closure with status 404 and the fixed plain-text
not-found body, performing no static file-system lookup; the body is
not a JSON object, so in particular it carries no JSON error field. -/
theorem api_unmatched_plain_404
    (cfg : Config) (hc : ConstructedStatic) (fs : FS) (t : TimeEnv)
    (up : OutboundRequest → Response) (r : Request)
    (hAPI : strStartsWith r.path "/api" = true)
    (hClean : cleanPath r.path = r.path)
    (h1 : r.path ≠ "/api/hello") (h2 : r.path ≠ "/api/status")
    (h3 : r.path ≠ "/api/info") (h4 : r.path ≠ "/api/tasks")
    (h5 : strStartsWith r.path "/api/tasks/" = false) :
    (serveRequest cfg hc fs t up r).1.status = 404 ∧
    (serveRequest cfg hc fs t up r).2 = [] ∧
    ¬ bodyHasJsonError (serveRequest cfg hc fs t up r).1.body := by
  have hRoot : strStartsWith r.path "/" = true := strStartsWith_root_of_api hAPI
  have hNeRoot : r.path ≠ "/" := ne_root_of_api hAPI
  have hNeEmpty : r.path ≠ "" := ne_empty_of_api hAPI
  have hNeTS : r.path ≠ "/api/tasks/" := by
    intro he
    rw [he, strStartsWith_self] at h5
    exact absurd h5 (by decide)
  have hfx : findExact r.path = none := findExact_eq_none h1 h2 h3 hNeTS h4 hNeRoot
  have hfs2 : findExact (r.path ++ "/") = none := findExact_append_slash h4 hNeEmpty
  have hsr : shouldRedirectToSlash (cleanPath r.path) = false := by
    rw [hClean]
    exact shouldRedirectToSlash_eq_false hfs2
  have hsub : muxMatchSubtree r.path = some HandlerId.staticRoute := by
    simp [muxMatchSubtree, muxES, List.find?, h5, hRoot]
  have hmm : muxMatch r.path = some HandlerId.staticRoute := by
    unfold muxMatch
    rw [hfx]
    exact hsub
  have hsr2 : shouldRedirectToSlash r.path = false := by
    rw [← hClean]
    exact hsr
  have hmd : muxDispatch r.path = MuxOutcome.handler HandlerId.staticRoute := by
    simp [muxDispatch, hClean, hsr2, hmm]
  cases hmode : hc.mode with
  | failing =>
      simp [serveRequest, hmd, staticServe, hmode, bodyHasJsonError]
  | serving =>
      simp [serveRequest, hmd, staticServe, hmode, serveStaticBody, hAPI,
        bodyHasJsonError]

/-- Witness for C1 at the probe path `/api/unknown`. -/
theorem api_unmatched_plain_404_witness :
    (serveRequest defaultConfig hcW fsW timeW upW (reqW "/api/unknown")).1.status = 404 ∧
    (serveRequest defaultConfig hcW fsW timeW upW (reqW "/api/unknown")).2 = [] := by
  have h := api_unmatched_plain_404 defaultConfig hcW fsW timeW upW (reqW "/api/unknown")
    (by decide) (by decide) (by decide) (by decide) (by decide) (by decide) (by decide)
  exact ⟨h.1, h.2.1⟩

/-- Counterexample for C1 as stated: at `/api/unknown` the status is
404 and no static lookup happens, but the body is the plain text
`404 page not found`, not valid JSON with an error field. -/
theorem api_unmatched_json_counterexample :
    (serveRequest defaultConfig hcW fsW timeW upW (reqW "/api/unknown")).1.status = 404 ∧
    (serveRequest defaultConfig hcW fsW timeW upW (reqW "/api/unknown")).1.body =
      Body.text "404 page not found\n" ∧
    ¬ bodyHasJsonError
      (serveRequest defaultConfig hcW fsW timeW upW (reqW "/api/unknown")).1.body := by
  have hb : (serveRequest defaultConfig hcW fsW timeW upW (reqW "/api/unknown")).1.body =
      Body.text "404 page not found\n" := by decide
  refine ⟨by decide, hb, ?_⟩
  rw [hb]
  simp [bodyHasJsonError]

/-! ## Claim C2: traversal requests and static-root confinement -/

/-- Claim C2 (amended): a request whose path is not in normalized form
(in particular any path whose traversal sequences would resolve outside
the static root) is answered with a 301 redirect to the normalized path
and no file-system lookup at all; and every file-system location the
pipeline ever opens is the `Dir.Open` join of the configured root with
a rooted, traversal-free segment sequence — the root itself or the root
extended below — so a file outside the root is never read, whether or
not one exists there. -/
theorem traversal_confined_to_root
    (cfg : Config) (hc : ConstructedStatic) (fs : FS) (t : TimeEnv)
    (up : OutboundRequest → Response) (r : Request) :
    (cleanPath r.path ≠ r.path →
       (serveRequest cfg hc fs t up r).1.status = 301 ∧
       (serveRequest cfg hc fs t up r).2 = []) ∧
    (∀ q ∈ (serveRequest cfg hc fs t up r).2,
       ∃ segs, q = dirOpenPath cfg.static.directory (rootedPath segs) ∧
         ".." ∉ segs ∧ "." ∉ segs ∧ "" ∉ segs) := by
  constructor
  · intro hne
    obtain ⟨loc, hmd⟩ : ∃ loc, muxDispatch r.path = MuxOutcome.redirect loc := by
      unfold muxDispatch
      by_cases hsr : shouldRedirectToSlash (cleanPath r.path) = true
      · exact ⟨cleanPath r.path ++ "/", by simp [hsr]⟩
      · exact ⟨cleanPath r.path, by simp [hsr, hne]⟩
    simp [serveRequest, hmd]
  · intro q hq
    cases hmd : muxDispatch r.path with
    | redirect loc =>
        rw [serveRequest, hmd] at hq
        exact absurd hq (by simp)
    | notFound =>
        rw [serveRequest, hmd] at hq
        exact absurd hq (by simp)
    | handler hid =>
        cases hid with
        | helloRoute =>
            rw [serveRequest, hmd] at hq
            exact absurd hq (by simp)
        | statusRoute =>
            rw [serveRequest, hmd] at hq
            exact absurd hq (by simp)
        | infoRoute =>
            rw [serveRequest, hmd] at hq
            exact absurd hq (by simp)
        | tasksProxyRoute =>
            rw [serveRequest, hmd] at hq
            exact absurd hq (by simp)
        | staticRoute =>
            cases hmode : hc.mode with
            | failing =>
                simp [serveRequest, hmd, staticServe, hmode] at hq
            | serving =>
                by_cases hapi : strStartsWith r.path "/api" = true
                · simp [serveRequest, hmd, staticServe, hmode, serveStaticBody,
                    hapi] at hq
                · have hapi2 : strStartsWith r.path "/api" = false := by
                    simpa using hapi
                  have hq2 : q ∈ (serveFileAt fs cfg.static.directory
                      (if strStartsWith r.path "/" = true then r.path
                       else "/" ++ r.path)).2 := by
                    simpa [serveRequest, hmd, staticServe, hmode,
                      serveStaticBody, hapi2] using hq
                  exact serveFileAt_lookups fs cfg.static.directory _ q hq2

/-- Witness for C2 (the conjunct with a hypothesis) at the traversal
path `/../secret.txt`: a redirect with no lookup. -/
theorem traversal_confined_to_root_witness :
    cleanPath "/../secret.txt" ≠ "/../secret.txt" ∧
    (serveRequest defaultConfig hcW fsW timeW upW (reqW "/../secret.txt")).1.status = 301 ∧
    (serveRequest defaultConfig hcW fsW timeW upW (reqW "/../secret.txt")).2 = [] := by
  have h := (traversal_confined_to_root defaultConfig hcW fsW timeW upW
    (reqW "/../secret.txt")).1 (by decide)
  exact ⟨by decide, h.1, h.2⟩

/-- Counterexample for C2 as stated: the traversal request
`/../secret.txt` resolves (naively) to `/secret.txt` outside the root,
a file that does exist in `fsW`; the response is a 301 redirect to the
normalized path, not a 404, and no file is read. -/
theorem traversal_404_counterexample :
    fsW.files "/secret.txt" = some "top secret" ∧
    (serveRequest defaultConfig hcW fsW timeW upW (reqW "/../secret.txt")).1.status = 301 ∧
    ¬ (serveRequest defaultConfig hcW fsW timeW upW (reqW "/../secret.txt")).1.status = 404 ∧
    (serveRequest defaultConfig hcW fsW timeW upW (reqW "/../secret.txt")).2 = [] := by
  refine ⟨by decide, by decide, ?_, by decide⟩
  intro h
  have h2 : (301 : Nat) = 404 := by
    rw [show (serveRequest defaultConfig hcW fsW timeW upW
      (reqW "/../secret.txt")).1.status = 301 from by decide] at h
    exact h
  exact absurd h2 (by decide)

/-! ## Claim C5: the Cache-Control header -/

/-- Claim C5 (amended): the static closure sets the pass-through
`Cache-Control: max-age=` header on every response it produces whenever
the configured value is non-empty — successful file and directory-index
responses, directory listings, the index and canonical trailing-slash
301 redirects, 404s for missing files and 404s for API-prefixed paths
alike — and emits no cache header when the value is empty; the
registered API handlers (hello, status, info) never emit it. -/
theorem cache_header_on_every_static_closure_response
    (cfg : Config) (hc : ConstructedStatic) (fs : FS) (t : TimeEnv)
    (up : OutboundRequest → Response) (r : Request)
    (hmode : hc.mode = StaticMode.serving)
    (hmd : muxDispatch r.path = MuxOutcome.handler HandlerId.staticRoute) :
    (cfg.static.cacheMaxAge = "" →
       hasHeader (serveRequest cfg hc fs t up r).1.headers "Cache-Control" = false) ∧
    (cfg.static.cacheMaxAge ≠ "" →
       ("Cache-Control", "max-age=" ++ cfg.static.cacheMaxAge) ∈
         (serveRequest cfg hc fs t up r).1.headers) ∧
    hasHeader (handleHello t r).headers "Cache-Control" = false ∧
    hasHeader (handleStatus t).headers "Cache-Control" = false ∧
    hasHeader (handleInfo cfg fs t).headers "Cache-Control" = false := by
  refine ⟨?_, ?_, by simp [handleHello, hasHeader], by simp [handleStatus, hasHeader],
    by simp [handleInfo, hasHeader]⟩
  all_goals intro hcma
  all_goals by_cases hapi : strStartsWith r.path "/api" = true
  case pos =>
    simp [serveRequest, hmd, staticServe, hmode, serveStaticBody, hapi, hcma,
      hasHeader, plainTextErrHeaders]
  case neg =>
    have hapi2 : strStartsWith r.path "/api" = false := by simpa using hapi
    simp [serveRequest, hmd, staticServe, hmode, serveStaticBody, hapi2, hcma,
      hasHeader_append, serveFileAt_no_cache]
  case pos =>
    simp [serveRequest, hmd, staticServe, hmode, serveStaticBody, hapi, hcma]
  case neg =>
    have hapi2 : strStartsWith r.path "/api" = false := by simpa using hapi
    simp [serveRequest, hmd, staticServe, hmode, serveStaticBody, hapi2, hcma]

/-- Witness for C5: the configured max-age `3600` reaches a successful
static file response, and also the 301 answer the program gives for
`GET /index.html` (the index redirect). -/
theorem cache_header_witness :
    ("Cache-Control", "max-age=3600") ∈
      (serveRequest defaultConfig hcW fsW timeW upW (reqW "/app.js")).1.headers ∧
    (serveRequest defaultConfig hcW fsW timeW upW (reqW "/app.js")).1.status = 200 ∧
    (serveRequest defaultConfig hcW fsW timeW upW (reqW "/app.js")).1.body =
      Body.text "console.log(1)" ∧
    (serveRequest defaultConfig hcW fsW timeW upW (reqW "/index.html")).1.status = 301 ∧
    ("Cache-Control", "max-age=3600") ∈
      (serveRequest defaultConfig hcW fsW timeW upW (reqW "/index.html")).1.headers ∧
    (serveRequest defaultConfig hcW fsW timeW upW (reqW "/")).1.status = 200 ∧
    (serveRequest defaultConfig hcW fsW timeW upW (reqW "/")).1.body =
      Body.text "homepage" := by
  refine ⟨?_, by decide, by decide, by decide, by decide, by decide, by decide⟩
  exact (cache_header_on_every_static_closure_response defaultConfig hcW fsW timeW
    upW (reqW "/app.js") (by decide) (by decide)).2.1 (by decide)

/-- Counterexample for C5 as stated: the 404 response for the
API-prefixed path `/api/nope` (not a successful static response)
carries the configured cache header. -/
theorem cache_header_counterexample :
    (serveRequest defaultConfig hcW fsW timeW upW (reqW "/api/nope")).1.status = 404 ∧
    ("Cache-Control", "max-age=3600") ∈
      (serveRequest defaultConfig hcW fsW timeW upW (reqW "/api/nope")).1.headers := by
  exact ⟨by decide, by decide⟩

/-! ## Claim C3: where the proxy target comes from -/

/-- Claim C3 (amended): the proxy upstream authority is the hardcoded
literal `http://localhost:8080` inside the request handler, not
supplied by the configuration (whose type carries no proxy field); it
is parsed anew on every proxied request — zero parses happen during
server construction — though the parsed authority is the same fixed
value for every request. -/
theorem proxy_target_hardcoded_per_request (cfg : Config) (r : Request) :
    newServerEvents cfg = [] ∧
    (handleTasksProxyCall r).1 = [ServerEvent.parseTarget "http://localhost:8080"] ∧
    (handleTasksProxyCall r).2.url.scheme = "http" ∧
    (handleTasksProxyCall r).2.url.host = "localhost:8080" :=
  ⟨rfl, rfl, rfl, rfl⟩

/-- Counterexample for C3 as stated: construction performs zero target
resolutions, while two proxied requests perform two — not "exactly once
at construction with no per-request resolution". -/
theorem proxy_target_once_counterexample :
    (newServerEvents defaultConfig).length = 0 ∧
    ((handleTasksProxyCall (reqW "/api/tasks")).1 ++
        (handleTasksProxyCall (reqW "/api/tasks/9")).1).length = 2 ∧
    (handleTasksProxyCall (reqW "/api/tasks")).1 =
      [ServerEvent.parseTarget "http://localhost:8080"] :=
  ⟨rfl, rfl, rfl⟩

/-! ## Claim C4: the outbound proxied request -/

theorem singleJoiningSlash_empty_left {p : String}
    (hp : strStartsWith p "/" = true) : singleJoiningSlash "" p = p := by
  have ha : lastChar "" = none := by decide
  simp [singleJoiningSlash, ha, hp, str_empty_append]

theorem hasHeader_filter_false {hs : List (String × String)} {n : String}
    (p : String × String → Bool) (h : hasHeader hs n = false) :
    hasHeader (hs.filter p) n = false := by
  simp only [hasHeader, List.any_eq_false] at h ⊢
  intro kv hkv
  exact h kv (List.mem_of_mem_filter hkv)

theorem connectionTokens_nil {hs : List (String × String)}
    (h : hasHeader hs "Connection" = false) : connectionTokens hs = [] := by
  simp only [hasHeader, List.any_eq_false] at h
  unfold connectionTokens
  have hfm : hs.filterMap
      (fun kv => if kv.1 = "Connection" then some kv.2 else none) = [] := by
    rw [List.filterMap_eq_nil_iff]
    intro kv hkv
    rw [if_neg]
    intro he
    exact absurd (by simp [he]) (h kv hkv)
  rw [hfm]
  rfl

/-- Claim C4 (amended): the outbound request rewrites only the URL
authority to the fixed target; method, path, query and body pass
through unchanged, and (absent a Connection header) every inbound
header that is not hop-by-hop and not X-Forwarded-For passes through;
X-Forwarded-For is appended when the client address parses.  The Host
header is NOT rewritten to the upstream authority — it passes through
unchanged — and no X-Forwarded-Host header is added. -/
theorem proxy_outbound_rewrite (r : Request)
    (hp : strStartsWith r.path "/" = true) :
    (reverseProxyOutbound r).url.scheme = "http" ∧
    (reverseProxyOutbound r).url.host = "localhost:8080" ∧
    (reverseProxyOutbound r).url.path = r.path ∧
    (reverseProxyOutbound r).url.rawQuery = r.rawQuery ∧
    (reverseProxyOutbound r).method = r.method ∧
    (reverseProxyOutbound r).reqBody = r.reqBody ∧
    (reverseProxyOutbound r).host = r.host ∧
    (hasHeader r.headers "X-Forwarded-Host" = false →
       hasHeader (reverseProxyOutbound r).headers "X-Forwarded-Host" = false) ∧
    (∀ ip, splitHostPortHost r.remoteAddr = some ip →
       hasHeader (reverseProxyOutbound r).headers "X-Forwarded-For" = true) ∧
    (hasHeader r.headers "Connection" = false →
       ∀ kv ∈ r.headers, kv.1 ∉ hopByHopHeaderNames → kv.1 ≠ "X-Forwarded-For" →
         kv ∈ (reverseProxyOutbound r).headers) := by
  have hdh : ∀ n : String, n ≠ "User-Agent" → hasHeader r.headers n = false →
      hasHeader (proxyDirector proxyTarget r).headers n = false := by
    intro n hn hf
    unfold proxyDirector
    by_cases hua : hasHeader r.headers "User-Agent" = true
    · simpa [hua] using hf
    · have hua2 : hasHeader r.headers "User-Agent" = false := by simpa using hua
      simp only [hua2, Bool.false_eq_true, if_false, hasHeader_append, hf,
        Bool.false_or]
      simp only [hasHeader, List.any_cons, List.any_nil, Bool.or_false]
      simpa using fun h => hn h.symm
  refine ⟨rfl, rfl, singleJoiningSlash_empty_left hp, ?_, rfl, rfl, rfl, ?_, ?_, ?_⟩
  · simp [reverseProxyOutbound, proxyDirector, proxyTarget, str_empty_append]
  · intro hfh
    have hsh : hasHeader
        (removeHopByHop (proxyDirector proxyTarget r).headers) "X-Forwarded-Host" =
          false :=
      hasHeader_filter_false _ (hasHeader_filter_false _ (hdh _ (by decide) hfh))
    unfold reverseProxyOutbound
    cases hsp : splitHostPortHost r.remoteAddr with
    | none => simpa [hsp] using hsh
    | some ip =>
        simp only [hsp, setXForwardedFor, headerSet, hasHeader_append,
          hasHeader_filter_false _ hsh, Bool.false_or]
        simp [hasHeader]
  · intro ip hip
    unfold reverseProxyOutbound
    simp [hip, setXForwardedFor, headerSet, hasHeader_append, hasHeader]
  · intro hconn kv hkv hhop hxff
    have hmem1 : kv ∈ (proxyDirector proxyTarget r).headers := by
      unfold proxyDirector
      by_cases hua : hasHeader r.headers "User-Agent" = true
      · simpa [hua] using hkv
      · have hua2 : hasHeader r.headers "User-Agent" = false := by simpa using hua
        simp only [hua2, Bool.false_eq_true, if_false]
        exact List.mem_append_left _ hkv
    have hct : connectionTokens (proxyDirector proxyTarget r).headers = [] :=
      connectionTokens_nil (hdh "Connection" (by decide) hconn)
    have hmem2 : kv ∈ removeHopByHop (proxyDirector proxyTarget r).headers := by
      unfold removeHopByHop
      refine List.mem_filter.mpr ⟨List.mem_filter.mpr ⟨hmem1, ?_⟩, ?_⟩
      · rw [hct]
        simp
      · simpa using hhop
    unfold reverseProxyOutbound
    cases hsp : splitHostPortHost r.remoteAddr with
    | none => simpa [hsp] using hmem2
    | some ip =>
        simp only [hsp, setXForwardedFor, headerSet]
        exact List.mem_append_left _
          (List.mem_filter.mpr ⟨hmem2, by simpa using hxff⟩)

/-- Witness for C4: a concrete request keeps its own Host and gains an
X-Forwarded-For entry. -/
theorem proxy_outbound_rewrite_witness :
    (reverseProxyOutbound (reqW "/api/tasks")).url.host = "localhost:8080" ∧
    (reverseProxyOutbound (reqW "/api/tasks")).host = (reqW "/api/tasks").host ∧
    hasHeader (reverseProxyOutbound (reqW "/api/tasks")).headers "X-Forwarded-For" =
      true := by
  have h := proxy_outbound_rewrite (reqW "/api/tasks") (by decide)
  exact ⟨h.2.1, h.2.2.2.2.2.2.1, h.2.2.2.2.2.2.2.2.1 "203.0.113.9" (by decide)⟩

/-- Counterexample for C4 as stated: the outbound Host header stays
`example.com:8081` instead of being rewritten to the upstream authority
`localhost:8080`, and no X-Forwarded-Host header is appended. -/
theorem proxy_host_rewrite_counterexample :
    (reverseProxyOutbound (reqW "/api/tasks")).host = "example.com:8081" ∧
    ¬ (reverseProxyOutbound (reqW "/api/tasks")).host = "localhost:8080" ∧
    hasHeader (reverseProxyOutbound (reqW "/api/tasks")).headers "X-Forwarded-Host" =
      false := by
  exact ⟨by decide, by decide, by decide⟩

end FeatherJet
